import Mathlib

/-!
Verification development for the download-orchestration and
playlist-synchronization engine of `video_downloader.py`.

The Python source is shallowly embedded: pure fragments become Lean
functions on `String` / `List Char`; the stateful parts (download ledger,
playlist snapshots) become explicit state passing over an `AppState`
record; interactions with the outside world (subprocess output, the
directory listing, message-box replies, timestamps) become explicit
inputs.  Python regular expressions are embedded as bespoke matchers;
each of the patterns used here is deterministic (greedy matching with no
observable backtracking), which is argued in the comment of each matcher.
Character-level operations model the ASCII fragment of Python's `str`
semantics (the data handled by the program - URLs, yt-dlp output markers,
file names - is ASCII where these operations matter).
-/

namespace VideoDownloader

/-! ## Basic string helpers (Python `in`, `startswith`, `endswith`, `strip`, `lower`) -/

/-- `beginsWith pat l` is true when `pat` is an initial segment of `l`. -/
def beginsWith : List Char → List Char → Bool
  | [], _ => true
  | _ :: _, [] => false
  | p :: ps, c :: cs => p == c && beginsWith ps cs

/-- `subStr pat l`: Python's substring test `pat in l`. -/
def subStr (pat : List Char) : List Char → Bool
  | [] => beginsWith pat []
  | c :: cs => beginsWith pat (c :: cs) || subStr pat cs

/-- Substring test on `String`s: `subStrS pat s` is Python's `pat in s`. -/
def subStrS (pat s : String) : Bool := subStr pat.data s.data

/-- `trailsWith suf l` is Python's `l.endswith(suf)`. -/
def trailsWith (suf l : List Char) : Bool := beginsWith suf.reverse l.reverse

/-- ASCII whitespace as stripped by Python's `str.strip()` (the source only
ever strips ASCII text: URLs and yt-dlp output lines). -/
def isPySpace (c : Char) : Bool :=
  c == ' ' || c == '\t' || c == '\n' || c == '\r' || c == '\x0b' || c == '\x0c'

/-- Python `str.strip()` on the ASCII fragment. -/
def pyStripL (l : List Char) : List Char :=
  ((l.dropWhile isPySpace).reverse.dropWhile isPySpace).reverse

/-- Python `str.strip()` on `String`s. -/
def pyStrip (s : String) : String := (pyStripL s.data).asString

/-- Python `str.lower()` on the ASCII fragment (`Char.toLower` lowers
exactly the ASCII uppercase letters). -/
def lowerS (s : String) : String := (s.data.map Char.toLower).asString

/-! ## Character classes used by the compiled patterns -/

def isDigitA (c : Char) : Bool := '0' ≤ c && c ≤ '9'

def isAlphaA (c : Char) : Bool := ('a' ≤ c && c ≤ 'z') || ('A' ≤ c && c ≤ 'Z')

/-- `[0-9A-Za-z]` -/
def isAlnumA (c : Char) : Bool := isDigitA c || isAlphaA c

/-- `\w` (ASCII fragment): `[A-Za-z0-9_]`. -/
def isWordA (c : Char) : Bool := isAlnumA c || c == '_'

/-- `[A-Za-z0-9_-]`, the character class of the YouTube id patterns and of
`BRACKET_ID`. -/
def isIdA (c : Char) : Bool := isAlnumA c || c == '_' || c == '-'

/-- `[\d.]`, the character class of the size/speed patterns. -/
def isDigDotA (c : Char) : Bool := isDigitA c || c == '.'

/-! ## Pattern matchers

Each matcher `pAt : List Char → Option (List Char)` tries the pattern at
the head of its input and returns the captured group on success.
`searchPat pAt` then mirrors `re.search`: leftmost position wins.  All
patterns below consist of literals, greedy runs of a character class
followed by a character outside that class (so shorter runs can never
succeed where the maximal run fails), and optionals whose alternative
branch is immediately refuted (so the greedy choice is forced); hence the
deterministic matchers below agree exactly with Python's backtracking. -/

/-- Consume a literal, returning the rest of the input. -/
def dropLit : List Char → List Char → Option (List Char)
  | [], l => some l
  | _ :: _, [] => none
  | p :: ps, c :: cs => if p == c then dropLit ps cs else none

/-- `re.search` for a matcher: try every start position left to right. -/
def searchPat (p : List Char → Option (List Char)) : List Char → Option (List Char)
  | [] => p []
  | c :: cs =>
    match p (c :: cs) with
    | some g => some g
    | none => searchPat p cs

/-- `YOUTUBE_VIDEO_ID = [?&]v=([A-Za-z0-9_-]{6,})` at a position. -/
def ytVAt (l : List Char) : Option (List Char) :=
  match l with
  | c :: cs =>
    if c == '?' || c == '&' then
      match dropLit "v=".data cs with
      | some rest =>
        let run := rest.takeWhile isIdA
        if 6 ≤ run.length then some run else none
      | none => none
    else none
  | [] => none

/-- A literal followed by a `{6,}` run of `[A-Za-z0-9_-]`; shared shape of
`YOUTUBE_SHORT_URL`, `YOUTUBE_SHORTS`, `YOUTUBE_EMBED`, `YOUTUBE_LIVE`. -/
def litRun6At (lit : String) (l : List Char) : Option (List Char) :=
  match dropLit lit.data l with
  | some rest =>
    let run := rest.takeWhile isIdA
    if 6 ≤ run.length then some run else none
  | none => none

/-- `YOUTUBE_SHORT_URL = youtu\.be/([A-Za-z0-9_-]{6,})` at a position. -/
def ytShortAt (l : List Char) : Option (List Char) := litRun6At "youtu.be/" l

/-- `YOUTUBE_SHORTS = /shorts/([A-Za-z0-9_-]{6,})` at a position. -/
def ytShortsAt (l : List Char) : Option (List Char) := litRun6At "/shorts/" l

/-- `YOUTUBE_EMBED = /embed/([A-Za-z0-9_-]{6,})` at a position. -/
def ytEmbedAt (l : List Char) : Option (List Char) := litRun6At "/embed/" l

/-- `YOUTUBE_LIVE = /live/([A-Za-z0-9_-]{6,})` at a position. -/
def ytLiveAt (l : List Char) : Option (List Char) := litRun6At "/live/" l

/-- `YOUTUBE_PLAYLIST = [?&]list=([A-Za-z0-9_-]+)` at a position. -/
def ytPlaylistAt (l : List Char) : Option (List Char) :=
  match l with
  | c :: cs =>
    if c == '?' || c == '&' then
      match dropLit "list=".data cs with
      | some rest =>
        let run := rest.takeWhile isIdA
        if 1 ≤ run.length then some run else none
      | none => none
    else none
  | [] => none

/-- `BILIBILI_BV = /video/(BV[0-9A-Za-z]{10})` at a position: the group is
`BV` plus exactly ten alphanumeric characters. -/
def biliBVAt (l : List Char) : Option (List Char) :=
  match dropLit "/video/BV".data l with
  | some rest =>
    let run := rest.takeWhile isAlnumA
    if 10 ≤ run.length then some ("BV".data ++ run.take 10) else none
  | none => none

/-- `BILIBILI_AV = /video/(av\d+)` at a position. -/
def biliAVAt (l : List Char) : Option (List Char) :=
  match dropLit "/video/av".data l with
  | some rest =>
    let run := rest.takeWhile isDigitA
    if 1 ≤ run.length then some ("av".data ++ run) else none
  | none => none

/-- `BILIBILI_VIDEO = bilibili\.com/video/(\w+)` at a position. -/
def biliVideoAt (l : List Char) : Option (List Char) :=
  match dropLit "bilibili.com/video/".data l with
  | some rest =>
    let run := rest.takeWhile isWordA
    if 1 ≤ run.length then some run else none
  | none => none

/-- `BRACKET_ID = \[([A-Za-z0-9_-]{8,})\]` at a position. -/
def bracketIdAt (l : List Char) : Option (List Char) :=
  match l with
  | '[' :: cs =>
    let run := cs.takeWhile isIdA
    if 8 ≤ run.length then
      match cs.dropWhile isIdA with
      | ']' :: _ => some run
      | _ => none
    else none
  | _ => none

/-- `PROGRESS_PERCENT = (\d+\.\d+)%` at a position. -/
def percentAt (l : List Char) : Option (List Char) :=
  let d1 := l.takeWhile isDigitA
  if d1.isEmpty then none
  else
    match l.dropWhile isDigitA with
    | '.' :: r2 =>
      let d2 := r2.takeWhile isDigitA
      if d2.isEmpty then none
      else
        match r2.dropWhile isDigitA with
        | '%' :: _ => some (d1 ++ '.' :: d2)
        | _ => none
    | _ => none

/-- The common tail `([\d.]+\s*[KMGT]?i?B` of the size/speed patterns,
starting right after `of\s+` / `at\s+`; returns the capture (up to and
including `B`) together with the rest of the input. -/
def sizeBodyAt (l : List Char) : Option (List Char × List Char) :=
  let num := l.takeWhile isDigDotA
  if num.isEmpty then none
  else
    let r2 := l.dropWhile isDigDotA
    let ws2 := r2.takeWhile isPySpace
    let r3 := r2.dropWhile isPySpace
    let unitStep : List Char × List Char :=
      match r3 with
      | c :: cs =>
        if c == 'K' || c == 'M' || c == 'G' || c == 'T' then ([c], cs) else ([], r3)
      | [] => ([], r3)
    let u := unitStep.1
    let r4 := unitStep.2
    let iStep : List Char × List Char :=
      match r4 with
      | 'i' :: cs => (['i'], cs)
      | _ => ([], r4)
    let ii := iStep.1
    let r5 := iStep.2
    match r5 with
    | 'B' :: r6 => some (num ++ ws2 ++ u ++ ii ++ ['B'], r6)
    | _ => none

/-- `PROGRESS_SIZE = of\s+([\d.]+\s*[KMGT]?i?B)` at a position. -/
def sizeAt (l : List Char) : Option (List Char) :=
  match dropLit "of".data l with
  | some r0 =>
    if (r0.takeWhile isPySpace).isEmpty then none
    else
      match sizeBodyAt (r0.dropWhile isPySpace) with
      | some (g, _) => some g
      | none => none
  | none => none

/-- `PROGRESS_SPEED = at\s+([\d.]+\s*[KMGT]?i?B/s)` at a position. -/
def speedAt (l : List Char) : Option (List Char) :=
  match dropLit "at".data l with
  | some r0 =>
    if (r0.takeWhile isPySpace).isEmpty then none
    else
      match sizeBodyAt (r0.dropWhile isPySpace) with
      | some (g, r6) =>
        match r6 with
        | '/' :: 's' :: _ => some (g ++ "/s".data)
        | _ => none
      | none => none
  | none => none

/-- `PROGRESS_ETA = ETA\s+(\d+:\d+)` at a position. -/
def etaAt (l : List Char) : Option (List Char) :=
  match dropLit "ETA".data l with
  | some r0 =>
    if (r0.takeWhile isPySpace).isEmpty then none
    else
      let r1 := r0.dropWhile isPySpace
      let d1 := r1.takeWhile isDigitA
      if d1.isEmpty then none
      else
        match r1.dropWhile isDigitA with
        | ':' :: r2 =>
          let d2 := r2.takeWhile isDigitA
          if d2.isEmpty then none
          else some (d1 ++ ':' :: d2)
        | _ => none
  | none => none

/-! ## PlatformUtils -/

namespace PlatformUtils

/-- `PlatformUtils.detect_platform`: case-insensitive substring
classification of a URL. -/
def detect_platform (url : String) : String :=
  let low := lowerS url
  if subStrS "youtube.com" low || subStrS "youtu.be" low then "youtube"
  else if subStrS "bilibili.com" low || subStrS "b23.tv" low then "bilibili"
  else "unknown"

/-- Ordered pattern scan: `for pattern in [...]: match = pattern.search(url)`,
first match wins. -/
def firstPat (pats : List (List Char → Option (List Char))) (l : List Char) :
    Option (List Char) :=
  match pats with
  | [] => none
  | p :: ps =>
    match searchPat p l with
    | some g => some g
    | none => firstPat ps l

/-- `PlatformUtils.extract_video_id`. -/
def extract_video_id (url : String) : String :=
  let platform := detect_platform url
  if platform = "youtube" then
    match firstPat [ytVAt, ytShortAt, ytShortsAt, ytEmbedAt, ytLiveAt, ytPlaylistAt]
        url.data with
    | some g => g.asString
    | none => pyStrip url
  else if platform = "bilibili" then
    match firstPat [biliBVAt, biliAVAt, biliVideoAt] url.data with
    | some g => "bili_" ++ g.asString
    | none => pyStrip url
  else pyStrip url

/-- `PlatformUtils.extract_playlist_id`. -/
def extract_playlist_id (url : String) : String :=
  match searchPat ytPlaylistAt url.data with
  | some g => g.asString
  | none => pyStrip url

end PlatformUtils

/-! ## DownloadStats -/

/-- The `DownloadStats` dataclass (all fields Python `int`). -/
structure DownloadStats where
  total_downloads : Int
  successful_downloads : Int
  failed_downloads : Int
  skipped_downloads : Int
  total_bytes_downloaded : Int
  total_time_seconds : Int
deriving DecidableEq

namespace DownloadStats

/-- `dict.get(key, 0)` over the flat key-value encoding. -/
def dictGet (d : List (String × Int)) (k : String) : Int :=
  match d with
  | [] => 0
  | kv :: t => if kv.1 == k then kv.2 else dictGet t k

/-- `DownloadStats.to_dict`. -/
def to_dict (s : DownloadStats) : List (String × Int) :=
  [("total_downloads", s.total_downloads),
   ("successful_downloads", s.successful_downloads),
   ("failed_downloads", s.failed_downloads),
   ("skipped_downloads", s.skipped_downloads),
   ("total_bytes_downloaded", s.total_bytes_downloaded),
   ("total_time_seconds", s.total_time_seconds)]

/-- `DownloadStats.from_dict` (each field read with `data.get(key, 0)`). -/
def from_dict (d : List (String × Int)) : DownloadStats :=
  { total_downloads := dictGet d "total_downloads"
    successful_downloads := dictGet d "successful_downloads"
    failed_downloads := dictGet d "failed_downloads"
    skipped_downloads := dictGet d "skipped_downloads"
    total_bytes_downloaded := dictGet d "total_bytes_downloaded"
    total_time_seconds := dictGet d "total_time_seconds" }

end DownloadStats

/-! ## difflib.SequenceMatcher ratio (used by the fuzzy-match branch of
`_has_local_file_for_video`)

`SequenceMatcher(None, a, b).ratio()` with the default `autojunk=True`:
when `len(b) >= 200`, characters occurring more than `len(b) // 100 + 1`
times in `b` are "popular" and excluded from the match-finding table;
there is no explicit junk (`isjunk=None`).  `find_longest_match` then
returns the longest popularity-avoiding common block (ties: smallest
start in `a`, then smallest start in `b`) extended on both sides over
equal characters, `get_matching_blocks` recurses on both sides of that
block, and `ratio = 2*M/T` where `M` is the total matched size and
`T = len(a) + len(b)` (`1.0` when `T = 0`).  The source only compares the
ratio against `0.75`; since `T` is far below `2^50`, the float comparison
`2.0*M/T >= 0.75` agrees exactly with the rational `8*M >= 3*T`, which is
what `ratioGE34` decides. -/

/-- Characters of `b` that `autojunk` makes unmatchable. -/
def popularChar (b : List Char) (c : Char) : Bool :=
  200 ≤ b.length && b.length / 100 + 1 < b.countP (fun x => x == c)

/-- Length of the common run of `x` and `y` that avoids popular `b`
characters on the `y` side. -/
def runLen (junk : Char → Bool) : List Char → List Char → Nat
  | x :: xs, y :: ys =>
    if x == y && !junk y then runLen junk xs ys + 1 else 0
  | _, _ => 0

/-- The longest popularity-avoiding common block of `a[alo:ahi]` and
`b[blo:bhi]` as `(i, j, size)`; on ties the lexicographically first
`(i, j)`, matching the scan order of `find_longest_match`. -/
def bestBlock (a b : List Char) (junk : Char → Bool) (alo ahi blo bhi : Nat) :
    Nat × Nat × Nat :=
  ((List.range (ahi - alo)).map (· + alo)).foldl
    (fun best i =>
      ((List.range (bhi - blo)).map (· + blo)).foldl
        (fun best j =>
          let k := min (min (runLen junk (a.drop i) (b.drop j)) (ahi - i)) (bhi - j)
          if best.2.2 < k then (i, j, k) else best)
        best)
    (alo, blo, 0)

/-- Element lookup used by the block-extension loops. -/
def charsEqAt (a b : List Char) (i j : Nat) : Bool :=
  match a.get? i, b.get? j with
  | some x, some y => x == y
  | _, _ => false

/-- The left-extension loop of `find_longest_match` (extends over equal
characters; with `isjunk=None` the junk test in the loop condition is
vacuous). -/
def extendLeft (a b : List Char) (alo blo : Nat) :
    Nat → Nat × Nat × Nat → Nat × Nat × Nat
  | 0, t => t
  | fuel + 1, (i, j, k) =>
    if alo < i && blo < j && charsEqAt a b (i - 1) (j - 1) then
      extendLeft a b alo blo fuel (i - 1, j - 1, k + 1)
    else (i, j, k)

/-- The right-extension loop of `find_longest_match`. -/
def extendRight (a b : List Char) (ahi bhi : Nat) :
    Nat → Nat × Nat × Nat → Nat × Nat × Nat
  | 0, t => t
  | fuel + 1, (i, j, k) =>
    if i + k < ahi && j + k < bhi && charsEqAt a b (i + k) (j + k) then
      extendRight a b ahi bhi fuel (i, j, k + 1)
    else (i, j, k)

/-- `find_longest_match` on the ranges `a[alo:ahi]`, `b[blo:bhi]`.  Each
extension loop runs at most `ahi + bhi` steps (a left step needs
`alo < i` and decreases `i`; a right step increases `k` while keeping
`i + k < ahi`), so fuel `ahi + bhi` never cuts an extension short. -/
def longestMatch (a b : List Char) (junk : Char → Bool) (alo ahi blo bhi : Nat) :
    Nat × Nat × Nat :=
  extendRight a b ahi bhi (ahi + bhi)
    (extendLeft a b alo blo (ahi + bhi) (bestBlock a b junk alo ahi blo bhi))

/-- Total matched size over `get_matching_blocks` (the recursion of
`get_matching_blocks` on both sides of each longest match); the fuel is
an upper bound on the recursion depth and is never exhausted for the
initial call below. -/
def blocksSum (a b : List Char) (junk : Char → Bool) :
    Nat → Nat → Nat → Nat → Nat → Nat
  | 0, _, _, _, _ => 0
  | fuel + 1, alo, ahi, blo, bhi =>
    let t := longestMatch a b junk alo ahi blo bhi
    if t.2.2 = 0 then 0
    else
      blocksSum a b junk fuel alo t.1 blo t.2.1 + t.2.2 +
        blocksSum a b junk fuel (t.1 + t.2.2) ahi (t.2.1 + t.2.2) bhi

/-- `SequenceMatcher(None, a, b).ratio() >= 0.75`, decided exactly over
the rationals. -/
def ratioGE34 (a b : List Char) : Bool :=
  let M := blocksSum a b (popularChar b) (a.length + b.length + 1) 0 a.length 0 b.length
  let T := a.length + b.length
  if T = 0 then true else decide (3 * T ≤ 8 * M)

/-! ## AppConstants (the parts the engine consults) -/

def VIDEO_EXTENSIONS : List String :=
  [".mp4", ".webm", ".mkv", ".flv", ".avi", ".mov", ".m4a"]

def IGNORE_SUFFIXES : List String := [".part", ".ytdl", ".temp", ".aria2"]

def RETRY_DELAY : Nat := 2

def DEFAULT_RETRY_COUNT : Nat := 3

/-! ## Shared ledger / snapshot state

`download_history` and `playlist_states` are the two persisted maps.  The
Python nested dicts `{path: {id: entry}}` are flattened to association
lists keyed by `(normalized path, id)`; the `...Disk` fields model the
JSON files written by `save_download_history` / `save_playlist_states`
(saving copies the in-memory map to disk).  Entry timestamps
(`datetime.now().isoformat()`) are abstracted to a `Nat` supplied by the
caller. -/

/-- A ledger entry (`{"url":.., "title":..}`; timestamp abstracted). -/
structure HistEntry where
  url : String
  title : String
deriving DecidableEq

/-- A playlist snapshot. -/
structure Snapshot where
  playlist_url : String
  video_ids : List String
  last_checked : Nat
deriving DecidableEq

/-- The persisted shared state of `MainWindow`. -/
structure AppState where
  download_history : List ((String × String) × HistEntry)
  historyDisk : List ((String × String) × HistEntry)
  playlist_states : List ((String × String) × Snapshot)
  statesDisk : List ((String × String) × Snapshot)
deriving DecidableEq

/-- Key lookup in a flattened map. -/
def lookupKey {β : Type} (l : List ((String × String) × β)) (k : String × String) :
    Option β :=
  match l with
  | [] => none
  | kv :: t => if kv.1 == k then some kv.2 else lookupKey t k

/-- Upsert in a flattened map. -/
def upsertKey {β : Type} (l : List ((String × String) × β)) (k : String × String)
    (v : β) : List ((String × String) × β) :=
  l.filter (fun kv => !(kv.1 == k)) ++ [(k, v)]

/-- `MainWindow.normalize_path`: `""` stays `""`, otherwise
`os.path.normcase(os.path.abspath(os.path.normpath(path)))`.  The OS
canonicalization is not embeddable; paths in this development are taken
to be already canonical, so normalization is the identity. -/
def normalize_path (p : String) : String := p

/-- `MainWindow.update_playlist_state`: overwrite the snapshot for
`(normalized path, playlist_id)` wholesale and persist the whole map. -/
def update_playlist_state (st : AppState) (downloadPath playlistId playlistUrl : String)
    (videoIds : List String) (now : Nat) : AppState :=
  let norm := normalize_path downloadPath
  if norm = "" ∨ playlistId = "" then st
  else
    let m := upsertKey st.playlist_states (norm, playlistId)
      ⟨playlistUrl, videoIds, now⟩
    { st with playlist_states := m, statesDisk := m }

/-- `MainWindow.add_to_download_history`: upsert an entry and persist the
whole ledger (done under `_history_lock` in the source). -/
def add_to_download_history (st : AppState) (downloadPath videoId url title : String) :
    AppState :=
  let norm := normalize_path downloadPath
  let m := upsertKey st.download_history (norm, videoId) ⟨url, title⟩
  { st with download_history := m, historyDisk := m }

/-! ## `_has_local_file_for_video` and `is_downloaded` -/

/-- The per-filename test of the `os.listdir` loop in
`_has_local_file_for_video`. -/
def fileMatchesId (idClean : String) (name : String) : Bool :=
  if !(VIDEO_EXTENSIONS.any (fun ext => trailsWith ext.data (lowerS name).data)) then
    false
  else if IGNORE_SUFFIXES.any (fun suf => trailsWith suf.data name.data) then false
  else if subStrS ("[" ++ idClean ++ "]") name || subStrS idClean name then true
  else
    match searchPat bracketIdAt name.data with
    | some fileId =>
      subStr fileId idClean.data || subStr idClean.data fileId ||
        ratioGE34 fileId idClean.data
    | none => false

/-- `MainWindow._has_local_file_for_video`.  The directory contents are an
explicit input: `none` models a missing directory (`os.path.isdir`
false), `some names` the `os.listdir` result. -/
def hasLocalFileForVideo (listing : Option (List String)) (downloadPath videoId : String) :
    Bool :=
  let norm := normalize_path downloadPath
  match listing with
  | none => false
  | some names =>
    if norm = "" then false
    else names.any (fileMatchesId (pyStrip videoId))

/-- Is there a ledger entry for `(normalized path, id)`? -/
def histHas (st : AppState) (norm videoId : String) : Bool :=
  st.download_history.any (fun kv => kv.1 == (norm, videoId))

/-- `MainWindow.is_downloaded`: true on a local file match; otherwise a
stale ledger entry (entry without file) is deleted, the ledger is
persisted, and the result is false.  The `del history[path][id]` plus
empty-submap cleanup of the source is the key deletion of the flattened
map. -/
def is_downloaded (st : AppState) (listing : Option (List String))
    (downloadPath videoId : String) : AppState × Bool :=
  let norm := normalize_path downloadPath
  if hasLocalFileForVideo listing norm videoId then (st, true)
  else if histHas st norm videoId then
    let h := st.download_history.filter (fun kv => !(kv.1 == (norm, videoId)))
    ({ st with download_history := h, historyDisk := h }, false)
  else (st, false)

/-! ## PlaylistSyncEngine: `detect_playlist_updates`

The method is embedded as a pure function.  External effects become
inputs bundled in `DPUEnv`: the flat-playlist metadata fetch, the
directory listing consulted by `_has_local_file_for_video`, and the two
`QMessageBox.question` replies.  UI-only calls
(`QMessageBox.information`, log output) have no observable effect on the
modelled state and are dropped; triggering `auto_download_playlist` is
recorded as the `autoTriggered` flag of the result. -/

/-- One entry of the flat-playlist metadata (`id` / `url` / `title` keys,
each possibly absent). -/
structure PlaylistEntry where
  id : Option String
  url : Option String
  title : Option String
deriving DecidableEq

/-- The parsed `-J --flat-playlist` metadata. -/
structure PlaylistMetadata where
  id : Option String
  entries : List PlaylistEntry
deriving DecidableEq

/-- The environment of one `detect_playlist_updates` call. -/
structure DPUEnv where
  metadata : Option PlaylistMetadata
  listing : Option (List String)
  userConfirm : Bool
  autoConfirm : Bool
deriving DecidableEq

inductive DPUStatus where
  | error
  | noChange
  | cancel
  | proceed
  | manual
deriving DecidableEq

/-- The dict returned by `detect_playlist_updates` (`added_videos` /
`missing_videos` are kept as id lists; their `title` field is always
`""` in the source). -/
structure DPUResult where
  status : DPUStatus
  reason : Option String
  added : List String
  missing : List String
  autoTriggered : Bool
deriving DecidableEq

/-- Python truthy-`or` on optional strings (`None` and `""` are falsy). -/
def pyOrStr (a b : Option String) : Option String :=
  match a with
  | some s => if s = "" then b else some s
  | none => b

/-- Title filter: `(e.get("title") or "").strip().lower()` equals
`"[deleted video]"` or `"[private video]"`. -/
def entryUnavailable (e : PlaylistEntry) : Bool :=
  let t := lowerS (pyStrip ((e.title).getD ""))
  t == "[deleted video]" || t == "[private video]"

/-- `e.get("id") or e.get("url")`, kept only when truthy (the
comprehension's filter). -/
def entryKey (e : PlaylistEntry) : Option String :=
  match pyOrStr e.id e.url with
  | some s => if s = "" then none else some s
  | none => none

/-- The current member ids: available entries (unavailable titles filtered
out) keyed by `e.get("id") or e.get("url")`. -/
def currentIdsOf (md : PlaylistMetadata) : List String :=
  (md.entries.filter (fun e => !(entryUnavailable e))).filterMap entryKey

/-- `metadata.get("id") or PlatformUtils.extract_playlist_id(playlist_url)`. -/
def playlistIdOf (md : PlaylistMetadata) (playlistUrl : String) : String :=
  match md.id with
  | some s => if s = "" then PlatformUtils.extract_playlist_id playlistUrl else s
  | none => PlatformUtils.extract_playlist_id playlistUrl

/-- `added = [vid for vid in current_ids if vid not in prev_ids]`. -/
def addedOf (prevIds currentIds : List String) : List String :=
  currentIds.filter (fun v => !(prevIds.contains v))

/-- `removed = [vid for vid in prev_ids if vid not in current_ids]` (the
source iterates the `set` of previous ids; membership is identical, only
the unobserved iteration order differs). -/
def removedOf (prevIds currentIds : List String) : List String :=
  prevIds.filter (fun v => !(currentIds.contains v))

/-- `missing = [vid for vid in current_ids if vid in prev_ids and no
local file]`. -/
def missingOf (prevIds currentIds : List String) (hasFile : String → Bool) :
    List String :=
  currentIds.filter (fun v => prevIds.contains v && !(hasFile v))

/-- Previous snapshot membership for `(normalized path, playlist_id)`. -/
def prevIdsOf (st : AppState) (norm pid : String) : List String :=
  match lookupKey st.playlist_states (norm, pid) with
  | some snap => snap.video_ids
  | none => []

/-- `MainWindow.detect_playlist_updates`. -/
def detect_playlist_updates (st : AppState) (playlistUrl downloadPath : String)
    (promptUser manualTrigger showNoChangeMessage offerAutoDownload : Bool)
    (env : DPUEnv) (now : Nat) : AppState × DPUResult :=
  -- showNoChangeMessage only selects a message box in the source.
  let _ := showNoChangeMessage
  if playlistUrl = "" ∨ downloadPath = "" then
    (st, ⟨.error, none, [], [], false⟩)
  else
    let norm := normalize_path downloadPath
    match env.metadata with
    | none => (st, ⟨.error, some "fetch-failed", [], [], false⟩)
    | some md =>
      if md.entries = [] then (st, ⟨.error, some "empty", [], [], false⟩)
      else
        let pid := playlistIdOf md playlistUrl
        let currentIds := currentIdsOf md
        let prevIds := prevIdsOf st norm pid
        let added := addedOf prevIds currentIds
        let removed := removedOf prevIds currentIds
        let missing := missingOf prevIds currentIds
          (fun v => hasLocalFileForVideo env.listing norm v)
        if added = [] ∧ removed = [] ∧ missing = [] then
          (update_playlist_state st norm pid playlistUrl currentIds now,
           ⟨.noChange, none, [], [], false⟩)
        else if promptUser ∧ ¬env.userConfirm then
          (st, ⟨.cancel, none, [], [], false⟩)
        else
          let st1 := update_playlist_state st norm pid playlistUrl currentIds now
          let st2 :=
            if missing = [] then st1
            else
              let h := st1.download_history.filter
                (fun kv => !(kv.1.1 == norm && missing.contains kv.1.2))
              { st1 with download_history := h, historyDisk := h }
          let triggered :=
            offerAutoDownload && !(added ++ missing).isEmpty && env.autoConfirm
          (st2,
           ⟨if manualTrigger then .manual else .proceed, none, added, missing,
            triggered⟩)

/-! ## DownloadWorker (single-item retry loop)

`run` is embedded over explicit inputs: the cooperative cancellation flag
becomes `cancelled : Nat → Bool` sampled at its successive checks (two
checks per loop iteration: the loop head and the post-attempt check),
and the outcome of the `attempt`-th `_download_once` call becomes
`outcome attempt : Bool × String` (the subprocess is the environment).
The output records the number of attempts launched, the backoff sleeps
performed (`time.sleep(RETRY_DELAY * attempt)`), and the
`download_finished` emissions. -/

/-- Observable output of one `DownloadWorker.run`. -/
structure RunOutput where
  attempts : Nat
  delays : List Nat
  emitted : List (String × Bool × String)
deriving DecidableEq

/-- The terminal message after exhausting all retries
(`f"下載失敗（已重試 {max_retries} 次）: {message}"`). -/
def exhaustedMsg (maxRetries : Nat) (lastMsg : String) : String :=
  "下載失敗（已重試 " ++ toString maxRetries ++ " 次）: " ++ lastMsg

/-- The loop body of `DownloadWorker.run`, by remaining iterations.
`attempt` is the current loop index, `ck` the index of the next
cancellation check, `lastMsg` the failure message of the previous
attempt. -/
def runWorkerAux (vid : String) (maxRetries : Nat) (cancelled : Nat → Bool)
    (outcome : Nat → Bool × String) :
    Nat → Nat → Nat → String → RunOutput
  | 0, _, _, lastMsg => ⟨0, [], [(vid, false, exhaustedMsg maxRetries lastMsg)]⟩
  | remaining + 1, attempt, ck, _ =>
    if cancelled ck then ⟨0, [], [(vid, false, "已取消")]⟩
    else
      let ds : List Nat := if 0 < attempt then [RETRY_DELAY * attempt] else []
      let r := outcome attempt
      if r.1 || cancelled (ck + 1) then ⟨1, ds, [(vid, r.1, r.2)]⟩
      else
        let rest := runWorkerAux vid maxRetries cancelled outcome remaining
          (attempt + 1) (ck + 2) r.2
        ⟨rest.attempts + 1, ds ++ rest.delays, rest.emitted⟩

/-- `DownloadWorker.run` (the constructor coerces `max_retries` with
`max_retries or DEFAULT_RETRY_COUNT`, so it is always positive in the
source). -/
def runWorker (vid : String) (maxRetries : Nat) (cancelled : Nat → Bool)
    (outcome : Nat → Bool × String) : RunOutput :=
  runWorkerAux vid maxRetries cancelled outcome maxRetries 0 0 ""

/-- The backoff sleeps of an all-failing run starting at loop index
`attempt`: one sleep of `RETRY_DELAY * a` before every re-attempt
`a = attempt, attempt+1, ...`. -/
def expectedDelays (attempt : Nat) : Nat → List Nat
  | 0 => []
  | r + 1 => RETRY_DELAY * attempt :: expectedDelays (attempt + 1) r

/-! ## BatchDownloadWorker

Three layers are embedded.  `parseProgress` is
`BatchDownloadWorker._parse_progress`.  `processLines` is the
line-streaming loop of `_download_single` over a given output stream
(the claims about it concern non-stopped streams, so the
`self._is_running` check, the timeout kill and OS-level spawn errors -
all of which yield item failure - are outside this model), producing the
deduplicated `download_progress` emissions and the
`has_successful_download` flag; `downloadSingleOutcome` is the function's
result.  `runBatch` is the item loop of `run`, with the per-item result
(dedup skip / download success / download failure) an input and the
stop flag sampled once per loop head (`stop()` sets a monotone flag; the
two loop-head checks around the pause poll observe the same value here). -/

/-- `BatchDownloadWorker._parse_progress`: the four independent progress
regexes, formatted and joined; `""` when nothing is recognized. -/
def parseProgress (line : String) : String :=
  if subStrS "%" line then
    let parts : List String :=
      (match searchPat percentAt line.data with
        | some g => [" " ++ g.asString ++ "%"]
        | none => []) ++
      (match searchPat sizeAt line.data with
        | some g => [" " ++ g.asString]
        | none => []) ++
      (match searchPat speedAt line.data with
        | some g => [" " ++ g.asString]
        | none => []) ++
      (match searchPat etaAt line.data with
        | some g => [" " ++ g.asString]
        | none => [])
    if parts.isEmpty then "" else String.intercalate " | " parts
  else ""

/-- Result of streaming one item's output. -/
structure StreamResult where
  emissions : List String
  evidence : Bool
deriving DecidableEq

/-- The `for line in iter(process.stdout.readline, "")` loop of
`_download_single`: strip, skip empties, dedup-emit progress for
`[download]` lines and collect completion evidence; the `elif` chain
sends `ERROR`/`WARNING` lines to the log before the `[Merger]` test. -/
def processLines : List String → String → Bool → StreamResult
  | [], _, ev => ⟨[], ev⟩
  | l :: ls, last, ev =>
    let line := pyStrip l
    if line = "" then processLines ls last ev
    else if subStrS "[download]" line then
      let ev' := ev || subStrS "has already been downloaded" line ||
        subStrS "100%" line
      let p := parseProgress line
      if p ≠ "" ∧ p ≠ last then
        let rest := processLines ls p ev'
        ⟨p :: rest.emissions, rest.evidence⟩
      else processLines ls last ev'
    else if subStrS "ERROR" line || subStrS "WARNING" line then
      processLines ls last ev
    else if subStrS "[Merger]" line || subStrS "Deleting original file" line then
      processLines ls last true
    else processLines ls last ev

/-- `BatchDownloadWorker._download_single`'s return value:
`return_code == 0 or has_successful_download`. -/
def downloadSingleOutcome (lines : List String) (returncode : Int) : Bool :=
  returncode == 0 || (processLines lines "" false).evidence

/-- What one fully processed item contributed. -/
inductive ItemResult where
  | skipped
  | success
  | failure
deriving DecidableEq

/-- The `self.stats` dict of a `BatchDownloadWorker`. -/
structure BatchStats where
  success : Nat
  failed : Nat
  skipped : Nat
deriving DecidableEq

/-- The per-item stats update of the batch loop. -/
def bumpStats (s : BatchStats) : ItemResult → BatchStats
  | .skipped => { s with skipped := s.skipped + 1 }
  | .success => { s with success := s.success + 1 }
  | .failure => { s with failed := s.failed + 1 }

/-- Componentwise order on batch stats. -/
def BatchStats.le (a b : BatchStats) : Prop :=
  a.success ≤ b.success ∧ a.failed ≤ b.failed ∧ a.skipped ≤ b.skipped

/-- Counter totals of a processed prefix. -/
def statsOf (l : List ItemResult) : BatchStats :=
  ⟨l.countP (fun x => x == .success), l.countP (fun x => x == .failure),
    l.countP (fun x => x == .skipped)⟩

/-- Observable output of one `BatchDownloadWorker.run` (normal, non-OS-error
path): the items fully processed, the final stats, and the
`task_finished` emissions. -/
structure BatchRun where
  processed : List ItemResult
  stats : BatchStats
  finishedEmits : List BatchStats
deriving DecidableEq

/-- The item loop: at each loop head the stop flag is observed
(`if not self._is_running: break`); a processed item updates exactly one
counter. -/
def runBatchAux (running : Nat → Bool) :
    List ItemResult → Nat → BatchStats → List ItemResult × BatchStats
  | [], _, s => ([], s)
  | item :: rest, idx, s =>
    if running idx then
      let r := runBatchAux running rest (idx + 1) (bumpStats s item)
      (item :: r.1, r.2)
    else ([], s)

/-- `BatchDownloadWorker.run`: stats start at zero, the loop runs, and
`task_finished` fires exactly once with the final stats. -/
def runBatch (items : List ItemResult) (running : Nat → Bool) : BatchRun :=
  let r := runBatchAux running items 0 ⟨0, 0, 0⟩
  ⟨r.1, r.2, [r.2]⟩

/-- The per-line success evidence actually implemented by the `elif`
chain of `_download_single`: `[download]` lines contribute through their
completion markers; otherwise `ERROR`/`WARNING` lines contribute
nothing; otherwise `[Merger]` / `Deleting original file` lines
contribute. -/
def mergerEvidenceLine (line : String) : Bool :=
  if subStrS "[download]" line then
    subStrS "has already been downloaded" line || subStrS "100%" line
  else if subStrS "ERROR" line || subStrS "WARNING" line then false
  else subStrS "[Merger]" line || subStrS "Deleting original file" line

/-- The success-evidence rule exactly as claim C4 words it: a
`[download]` line containing `has already been downloaded` or `100%`,
or ANY line containing `[Merger]` or `Deleting original file`.  Stated
from the claim's words for comparison against the code's
`processLines`. -/
def claimedEvidenceC4 (lines : List String) : Bool :=
  lines.any (fun l =>
    let line := pyStrip l
    (subStrS "[download]" line &&
      (subStrS "has already been downloaded" line || subStrS "100%" line)) ||
    subStrS "[Merger]" line || subStrS "Deleting original file" line)

/-! ## Claims -/

/-- C9: `DownloadStats.from_dict (DownloadStats.to_dict s) = s` for any
stats value with non-negative integer fields: the flat key-value
encoding is a lossless round-trip. -/
theorem c9_stats_roundtrip (s : DownloadStats)
    (h1 : 0 ≤ s.total_downloads) (h2 : 0 ≤ s.successful_downloads)
    (h3 : 0 ≤ s.failed_downloads) (h4 : 0 ≤ s.skipped_downloads)
    (h5 : 0 ≤ s.total_bytes_downloaded) (h6 : 0 ≤ s.total_time_seconds) :
    DownloadStats.from_dict (DownloadStats.to_dict s) = s := rfl

theorem c9_stats_roundtrip_witness :
    DownloadStats.from_dict (DownloadStats.to_dict ⟨1, 2, 3, 4, 5, 6⟩)
      = ⟨1, 2, 3, 4, 5, 6⟩ :=
  c9_stats_roundtrip ⟨1, 2, 3, 4, 5, 6⟩ (by decide) (by decide) (by decide)
    (by decide) (by decide) (by decide)

/-- C3: `detect_playlist_updates` computes its diff (the definitions
`addedOf`, `removedOf`, `missingOf` it is built from) with set
semantics: `added = current − previous`,
`removed = previous − current`,
`missing_locally = {v ∈ previous ∩ current : no local file}`; on the
previous snapshot `{A,B,C}` and current list `{A,C,D}` this gives
`added = {D}`, `removed = {B}`, `C ∈ missing_locally` exactly when its
local file is absent, and the removed `B` is never in
`missing_locally`. -/
theorem c3_playlist_diff :
    (∀ (prev current : List String) (hasFile : String → Bool) (v : String),
      (v ∈ addedOf prev current ↔ v ∈ current ∧ v ∉ prev)
      ∧ (v ∈ removedOf prev current ↔ v ∈ prev ∧ v ∉ current)
      ∧ (v ∈ missingOf prev current hasFile ↔
          v ∈ prev ∧ v ∈ current ∧ hasFile v = false))
    ∧ addedOf ["A", "B", "C"] ["A", "C", "D"] = ["D"]
    ∧ removedOf ["A", "B", "C"] ["A", "C", "D"] = ["B"]
    ∧ (∀ hasFile : String → Bool,
        ("C" ∈ missingOf ["A", "B", "C"] ["A", "C", "D"] hasFile ↔
          hasFile "C" = false)
        ∧ "B" ∉ missingOf ["A", "B", "C"] ["A", "C", "D"] hasFile) := by
  refine ⟨fun prev current hasFile v => ⟨?_, ?_, ?_⟩, by decide, by decide,
    fun hasFile => ⟨?_, ?_⟩⟩
  · simp [addedOf, List.mem_filter]
  · simp [removedOf, List.mem_filter]
  · simp [missingOf, List.mem_filter]; tauto
  · simp [missingOf, List.mem_filter]
  · simp [missingOf, List.mem_filter]

/-- C2: `is_downloaded` returns true exactly on a local file match; a
ledger entry without a matching local file is stale: it is deleted, the
ledger is persisted (`historyDisk` equals the new in-memory ledger) and
the call returns false, making the id eligible for re-download (no entry
is left behind). -/
theorem c2_is_downloaded (st : AppState) (listing : Option (List String))
    (path id : String) :
    (hasLocalFileForVideo listing (normalize_path path) id = true →
      is_downloaded st listing path id = (st, true))
    ∧ (hasLocalFileForVideo listing (normalize_path path) id = false →
        (histHas st (normalize_path path) id = false →
          is_downloaded st listing path id = (st, false))
        ∧ (histHas st (normalize_path path) id = true →
            (is_downloaded st listing path id).2 = false
            ∧ (is_downloaded st listing path id).1.download_history =
                st.download_history.filter
                  (fun kv => !(kv.1 == (normalize_path path, id)))
            ∧ (is_downloaded st listing path id).1.historyDisk =
                (is_downloaded st listing path id).1.download_history
            ∧ histHas (is_downloaded st listing path id).1 (normalize_path path) id
                = false)) := by
  refine ⟨fun h => ?_, fun h => ⟨fun h2 => ?_, fun h2 => ?_⟩⟩
  · simp [is_downloaded, h]
  · simp [is_downloaded, h, h2]
  · have h3 : is_downloaded st listing path id =
        ({ st with
            download_history := st.download_history.filter
              (fun kv => !(kv.1 == (normalize_path path, id)))
            historyDisk := st.download_history.filter
              (fun kv => !(kv.1 == (normalize_path path, id))) }, false) := by
      simp [is_downloaded, h, h2]
    rw [h3]
    refine ⟨rfl, rfl, rfl, ?_⟩
    simp [histHas, List.any_eq_true, List.mem_filter]

theorem c2_is_downloaded_witness :
    is_downloaded
        ⟨[(("/d", "abcdefghij"), ⟨"u", ""⟩)], [(("/d", "abcdefghij"), ⟨"u", ""⟩)],
         [], []⟩
        (some ["Title [abcdefghij].mp4", "Title [abcdefghij].mp4.part"])
        "/d" "abcdefghij"
      = (⟨[(("/d", "abcdefghij"), ⟨"u", ""⟩)], [(("/d", "abcdefghij"), ⟨"u", ""⟩)],
          [], []⟩, true)
    ∧ (is_downloaded
        ⟨[(("/d", "abcdefghij"), ⟨"u", ""⟩)], [(("/d", "abcdefghij"), ⟨"u", ""⟩)],
         [], []⟩
        (some ["Title [abcdefghij].mp4.part"]) "/d" "abcdefghij").2 = false
    ∧ (is_downloaded
        ⟨[(("/d", "abcdefghij"), ⟨"u", ""⟩)], [(("/d", "abcdefghij"), ⟨"u", ""⟩)],
         [], []⟩
        (some ["Title [abcdefghij].mp4.part"]) "/d" "abcdefghij").1.download_history
        = [] := by
  have h1 := (c2_is_downloaded
    ⟨[(("/d", "abcdefghij"), ⟨"u", ""⟩)], [(("/d", "abcdefghij"), ⟨"u", ""⟩)], [], []⟩
    (some ["Title [abcdefghij].mp4", "Title [abcdefghij].mp4.part"])
    "/d" "abcdefghij").1 (by decide)
  have h2 := ((c2_is_downloaded
    ⟨[(("/d", "abcdefghij"), ⟨"u", ""⟩)], [(("/d", "abcdefghij"), ⟨"u", ""⟩)], [], []⟩
    (some ["Title [abcdefghij].mp4.part"]) "/d" "abcdefghij").2 (by decide)).2
    (by decide)
  exact ⟨h1, h2.1, by rw [h2.2.1]; decide⟩

/-- C7: for a bilibili URL, `extract_video_id` tries the patterns
`/video/BV[0-9A-Za-z]{10}`, `/video/av\d+`, `bilibili.com/video/(\w+)`
in order, first match winning, and prefixes the captured token with
`bili_`; for an unknown platform, or when no pattern of the detected
platform matches, it returns the whitespace-stripped input URL. -/
theorem c7_extract_bilibili (url : String) :
    (PlatformUtils.detect_platform url = "bilibili" →
      (∀ g, searchPat biliBVAt url.data = some g →
        PlatformUtils.extract_video_id url = "bili_" ++ g.asString)
      ∧ (searchPat biliBVAt url.data = none →
          (∀ g, searchPat biliAVAt url.data = some g →
            PlatformUtils.extract_video_id url = "bili_" ++ g.asString)
          ∧ (searchPat biliAVAt url.data = none →
              (∀ g, searchPat biliVideoAt url.data = some g →
                PlatformUtils.extract_video_id url = "bili_" ++ g.asString)
              ∧ (searchPat biliVideoAt url.data = none →
                  PlatformUtils.extract_video_id url = pyStrip url))))
    ∧ (PlatformUtils.detect_platform url = "unknown" →
        PlatformUtils.extract_video_id url = pyStrip url) := by
  constructor
  · intro hplat
    refine ⟨?_, ?_⟩
    · intro g hg
      simp [PlatformUtils.extract_video_id, hplat, PlatformUtils.firstPat, hg]
    · intro hbv
      refine ⟨?_, ?_⟩
      · intro g hg
        simp [PlatformUtils.extract_video_id, hplat, PlatformUtils.firstPat, hbv, hg]
      · intro hav
        refine ⟨?_, ?_⟩
        · intro g hg
          simp [PlatformUtils.extract_video_id, hplat, PlatformUtils.firstPat,
            hbv, hav, hg]
        · intro hvid
          simp [PlatformUtils.extract_video_id, hplat, PlatformUtils.firstPat,
            hbv, hav, hvid]
  · intro hplat
    simp [PlatformUtils.extract_video_id, hplat]

theorem c7_extract_bilibili_witness :
    PlatformUtils.extract_video_id "https://www.bilibili.com/video/BV1234567890"
      = "bili_BV1234567890"
    ∧ PlatformUtils.extract_video_id "  https://example.com/x  "
      = "https://example.com/x" := by
  constructor
  · have h := ((c7_extract_bilibili
      "https://www.bilibili.com/video/BV1234567890").1 (by decide)).1
      "BV1234567890".data (by decide)
    rw [h]; decide
  · have h := (c7_extract_bilibili "  https://example.com/x  ").2 (by decide)
    rw [h]; decide

/-- The `has_successful_download` flag after streaming equals: some
stripped line passes the `elif`-chain evidence test. -/
theorem processLines_evidence (ls : List String) :
    ∀ (last : String) (ev : Bool),
      (processLines ls last ev).evidence =
        (ev || ls.any (fun l => mergerEvidenceLine (pyStrip l))) := by
  induction ls with
  | nil => intro last ev; simp [processLines]
  | cons l ls ih =>
    intro last ev
    simp only [processLines, List.any_cons]
    by_cases h0 : pyStrip l = ""
    · simp [h0, ih, mergerEvidenceLine, subStrS, subStr, beginsWith]
    · rw [if_neg h0]
      by_cases h1 : subStrS "[download]" (pyStrip l) = true
      · rw [if_pos h1]
        by_cases h2 : parseProgress (pyStrip l) ≠ "" ∧ parseProgress (pyStrip l) ≠ last
        · rw [if_pos h2]
          simp only [ih, mergerEvidenceLine, if_pos h1]
          cases ev <;> cases hA : subStrS "has already been downloaded" (pyStrip l) <;>
            cases hB : subStrS "100%" (pyStrip l) <;> simp
        · rw [if_neg h2]
          simp only [ih, mergerEvidenceLine, if_pos h1]
          cases ev <;> cases hA : subStrS "has already been downloaded" (pyStrip l) <;>
            cases hB : subStrS "100%" (pyStrip l) <;> simp
      · rw [if_neg h1]
        by_cases h3 : (subStrS "ERROR" (pyStrip l) || subStrS "WARNING" (pyStrip l)) = true
        · rw [if_pos h3]
          simp only [ih, mergerEvidenceLine]
          rw [if_neg h1, if_pos h3]
          simp
        · rw [if_neg h3]
          by_cases h4 : (subStrS "[Merger]" (pyStrip l) ||
              subStrS "Deleting original file" (pyStrip l)) = true
          · rw [if_pos h4]
            simp only [ih, mergerEvidenceLine]
            rw [if_neg h1, if_neg h3]
            simp [h4]
          · rw [if_neg h4]
            simp only [ih, mergerEvidenceLine]
            rw [if_neg h1, if_neg h3]
            simp only [Bool.not_eq_true] at h4
            simp [h4]

/-- C4 (amended): a batch item with non-zero exit code is still counted
successful exactly when some streamed line carries success evidence per
the `elif` chain: a `[download]` line containing
`has already been downloaded` or `100%`, or a line containing none of
`[download]`, `ERROR`, `WARNING` that contains `[Merger]` or
`Deleting original file`; exit code `0` always yields success, anything
else is failure. -/
theorem c4_success_criteria (lines : List String) (returncode : Int) :
    downloadSingleOutcome lines returncode = true ↔
      returncode = 0 ∨ ∃ l ∈ lines, mergerEvidenceLine (pyStrip l) = true := by
  simp [downloadSingleOutcome, processLines_evidence, List.any_eq_true]

/-- C4 counterexample: the claim as stated counts ANY `[Merger]` line as
success evidence, but a line that also contains `WARNING` is consumed by
the log branch of the `elif` chain, so with exit code 1 the item is a
failure although the claim predicts success. -/
theorem c4_counterexample :
    downloadSingleOutcome ["WARNING: [Merger] skipping destination"] 1 = false
    ∧ claimedEvidenceC4 ["WARNING: [Merger] skipping destination"] = true := by
  constructor
  · decide
  · decide

/-- Invariant of the streaming loop: emitted progress strings are
non-empty, consecutive emissions differ, and the first emission differs
from the incoming `last_progress`. -/
theorem processLines_emissions_inv (ls : List String) :
    ∀ (last : String) (ev : Bool),
      (∀ s ∈ (processLines ls last ev).emissions, s ≠ "")
      ∧ List.Chain' (· ≠ ·) (processLines ls last ev).emissions
      ∧ (∀ h, (processLines ls last ev).emissions.head? = some h → h ≠ last) := by
  induction ls with
  | nil => intro last ev; simp [processLines]
  | cons l ls ih =>
    intro last ev
    simp only [processLines]
    by_cases h0 : pyStrip l = ""
    · simpa [h0] using ih last ev
    · rw [if_neg h0]
      by_cases h1 : subStrS "[download]" (pyStrip l) = true
      · rw [if_pos h1]
        by_cases h2 : parseProgress (pyStrip l) ≠ "" ∧ parseProgress (pyStrip l) ≠ last
        · rw [if_pos h2]
          obtain ⟨ihne, ihch, ihhd⟩ := ih (parseProgress (pyStrip l))
            (ev || subStrS "has already been downloaded" (pyStrip l) ||
              subStrS "100%" (pyStrip l))
          refine ⟨?_, ?_, ?_⟩
          · intro s hs
            rcases List.mem_cons.1 hs with rfl | hs'
            · exact h2.1
            · exact ihne s hs'
          · refine List.chain'_cons'.2 ⟨?_, ihch⟩
            intro y hy
            exact (ihhd y hy).symm
          · intro h hh
            simp only [List.head?_cons, Option.some.injEq] at hh
            exact hh ▸ h2.2
        · rw [if_neg h2]
          exact ih last _
      · rw [if_neg h1]
        by_cases h3 : (subStrS "ERROR" (pyStrip l) || subStrS "WARNING" (pyStrip l)) = true
        · rw [if_pos h3]; exact ih last ev
        · rw [if_neg h3]
          by_cases h4 : (subStrS "[Merger]" (pyStrip l) ||
              subStrS "Deleting original file" (pyStrip l)) = true
          · rw [if_pos h4]; exact ih last true
          · rw [if_neg h4]; exact ih last ev

/-- C8: the `download_progress` emissions of one streamed item never
contain two equal consecutive values and never contain the empty
string (emission only when non-empty and different from the previous
one), and a line in which none of the four progress patterns matches
parses to the empty result rather than an error. -/
theorem c8_progress_dedup :
    (∀ lines : List String,
      List.Chain' (· ≠ ·) (processLines lines "" false).emissions
      ∧ ∀ s ∈ (processLines lines "" false).emissions, s ≠ "")
    ∧ (∀ line : String,
        searchPat percentAt line.data = none → searchPat sizeAt line.data = none →
        searchPat speedAt line.data = none → searchPat etaAt line.data = none →
        parseProgress line = "") := by
  constructor
  · intro lines
    obtain ⟨hne, hch, _⟩ := processLines_emissions_inv lines "" false
    exact ⟨hch, hne⟩
  · intro line h1 h2 h3 h4
    simp [parseProgress, h1, h2, h3, h4]

theorem c8_progress_dedup_witness :
    (List.Chain' (· ≠ ·) (processLines
        ["[download]  10.0% of 5.00MiB", "[download]  10.0% of 5.00MiB",
         "[download]  20.0% of 5.00MiB"] "" false).emissions
      ∧ ∀ s ∈ (processLines
        ["[download]  10.0% of 5.00MiB", "[download]  10.0% of 5.00MiB",
         "[download]  20.0% of 5.00MiB"] "" false).emissions, s ≠ "")
    ∧ parseProgress "[download] Destination: video.mp4" = "" := by
  refine ⟨c8_progress_dedup.1 _, ?_⟩
  exact c8_progress_dedup.2 "[download] Destination: video.mp4"
    (by decide) (by decide) (by decide) (by decide)

/-- Exhausted-retries shape of the loop body, for loop indices `≥ 1`:
with no cancellation and every attempt failing, each of the `remaining`
iterations sleeps `RETRY_DELAY * attempt` and the single terminal
emission carries the last failure message. -/
theorem runWorkerAux_allFail (vid : String) (mr : Nat) (cancelled : Nat → Bool)
    (outcome : Nat → Bool × String) (hc : ∀ n, cancelled n = false)
    (hf : ∀ n, (outcome n).1 = false) :
    ∀ (remaining attempt ck : Nat) (lastMsg : String), 1 ≤ attempt →
      runWorkerAux vid mr cancelled outcome remaining attempt ck lastMsg =
        ⟨remaining, expectedDelays attempt remaining,
         [(vid, false, exhaustedMsg mr
            (if remaining = 0 then lastMsg
             else (outcome (attempt + remaining - 1)).2))]⟩ := by
  intro remaining
  induction remaining with
  | zero => intro attempt ck lastMsg _; simp [runWorkerAux, expectedDelays]
  | succ r ihr =>
    intro attempt ck lastMsg ha
    rw [runWorkerAux]
    rw [hc ck, hc (ck + 1)]
    simp only [Bool.false_eq_true, if_false, hf attempt, Bool.false_or]
    rw [ihr (attempt + 1) (ck + 2) (outcome attempt).2 (by omega)]
    have hds : (if 0 < attempt then [RETRY_DELAY * attempt] else []) =
        [RETRY_DELAY * attempt] := if_pos (by omega)
    rw [hds]
    have hmsg : (if r = 0 then (outcome attempt).2
        else (outcome (attempt + 1 + r - 1)).2) = (outcome (attempt + r)).2 := by
      cases r with
      | zero => simp
      | succ r' => simp only [if_neg (Nat.succ_ne_zero r')]; congr 2; omega
    rw [hmsg]
    have harith : attempt + (r + 1) - 1 = attempt + r := by omega
    rw [harith]
    rfl

/-- C5: a `DownloadWorker` whose every attempt fails and which is never
cancelled performs exactly `max_retries` attempts, sleeping
`RETRY_DELAY * attempt` before each re-attempt (`expectedDelays 1
(max_retries - 1)`), with strictly increasing backoff delays, and emits
exactly one terminal `download_finished` failure carrying the last
failure message.  (`max_retries` is positive in the source: the
constructor coerces falsy values to `DEFAULT_RETRY_COUNT`.) -/
theorem c5_retry_exhaustion (vid : String) (maxRetries : Nat)
    (cancelled : Nat → Bool) (outcome : Nat → Bool × String)
    (hmr : 1 ≤ maxRetries) (hc : ∀ n, cancelled n = false)
    (hf : ∀ n, (outcome n).1 = false) :
    runWorker vid maxRetries cancelled outcome =
      ⟨maxRetries, expectedDelays 1 (maxRetries - 1),
       [(vid, false, exhaustedMsg maxRetries (outcome (maxRetries - 1)).2)]⟩
    ∧ List.Chain' (· < ·) (expectedDelays 1 (maxRetries - 1)) := by
  constructor
  · obtain ⟨m, rfl⟩ : ∃ m, maxRetries = m + 1 := ⟨maxRetries - 1, by omega⟩
    rw [runWorker, runWorkerAux]
    rw [hc 0, hc 1]
    simp only [Bool.false_eq_true, if_false, hf 0, Bool.false_or,
      Nat.lt_irrefl, Nat.add_sub_cancel]
    rw [runWorkerAux_allFail vid (m + 1) cancelled outcome hc hf m 1 2
      (outcome 0).2 (by omega)]
    have hmsg : (if m = 0 then (outcome 0).2 else (outcome (1 + m - 1)).2) =
        (outcome m).2 := by
      cases m with
      | zero => simp
      | succ m' => simp only [if_neg (Nat.succ_ne_zero m')]; congr 2; omega
    rw [hmsg]
    rfl
  · have key : ∀ (r a : Nat), 1 ≤ a → List.Chain' (· < ·) (expectedDelays a r) := by
      intro r
      induction r with
      | zero => intro a _; simp [expectedDelays]
      | succ r' ihr =>
        intro a ha
        cases r' with
        | zero => simp [expectedDelays]
        | succ r'' =>
          rw [expectedDelays, expectedDelays]
          refine List.chain'_cons.2 ⟨?_, ?_⟩
          · simp only [RETRY_DELAY]; omega
          · rw [← expectedDelays]
            exact ihr (a + 1) (by omega)
    exact key (maxRetries - 1) 1 (by omega)

theorem c5_retry_exhaustion_witness :
    runWorker "v" 3 (fun _ => false) (fun n => (false, "f" ++ toString n)) =
      ⟨3, [2, 4], [("v", false, "下載失敗（已重試 3 次）: f2")]⟩
    ∧ List.Chain' (· < ·) ([2, 4] : List Nat) := by
  have h := c5_retry_exhaustion "v" 3 (fun _ => false)
    (fun n => (false, "f" ++ toString n)) (by omega) (fun _ => rfl) (fun _ => rfl)
  refine ⟨?_, List.chain'_cons.2 ⟨by omega, List.chain'_singleton 4⟩⟩
  rw [h.1]
  rfl

/-- The final stats of the loop are the fold of the processed items. -/
theorem runBatchAux_stats (running : Nat → Bool) (l : List ItemResult) :
    ∀ (idx : Nat) (s : BatchStats),
      (runBatchAux running l idx s).2 =
        (runBatchAux running l idx s).1.foldl bumpStats s := by
  induction l with
  | nil => intro idx s; simp [runBatchAux]
  | cons item rest ih =>
    intro idx s
    rw [runBatchAux]
    by_cases h : running idx = true
    · rw [if_pos h]
      simp only [List.foldl_cons]
      exact ih (idx + 1) (bumpStats s item)
    · rw [if_neg h]
      simp

theorem foldl_bumpStats (l : List ItemResult) :
    ∀ s : BatchStats,
      l.foldl bumpStats s =
        ⟨s.success + (statsOf l).success, s.failed + (statsOf l).failed,
         s.skipped + (statsOf l).skipped⟩ := by
  induction l with
  | nil => intro s; simp [statsOf]
  | cons x t ih =>
    intro s
    simp only [List.foldl_cons, ih (bumpStats s x)]
    cases x <;> simp [bumpStats, statsOf, List.countP_cons, BatchStats.mk.injEq] <;> omega

/-- With the stop flag first observed false at loop index `k`, the loop
processes exactly the items before `k`. -/
theorem runBatchAux_stop (l : List ItemResult) (k : Nat) :
    ∀ (idx : Nat) (s : BatchStats),
      runBatchAux (fun i => decide (i < k)) l idx s =
        (l.take (k - idx), (l.take (k - idx)).foldl bumpStats s) := by
  induction l with
  | nil => intro idx s; simp [runBatchAux]
  | cons item rest ih =>
    intro idx s
    rw [runBatchAux]
    by_cases h : idx < k
    · rw [if_pos (by simpa using h)]
      rw [ih (idx + 1) (bumpStats s item)]
      have hk : k - idx = (k - (idx + 1)) + 1 := by omega
      rw [hk, List.take_succ_cons]
      simp [List.foldl_cons]
    · rw [if_neg (by simpa using h)]
      have hk : k - idx = 0 := by omega
      simp [hk]

theorem statsOf_foldl (l : List ItemResult) :
    l.foldl bumpStats ⟨0, 0, 0⟩ = statsOf l := by
  rw [foldl_bumpStats]
  simp [BatchStats.mk.injEq]

/-- C6: a batch stopped with effect from item index `k` on (the
`stop()` flag is monotone: once false at `k`, false after) never begins
processing the item after the stop point, and emits its final stats
exactly once, reflecting exactly the items processed before the stop
signal was observed. -/
theorem c6_stop_point (items : List ItemResult) (k : Nat) :
    runBatch items (fun i => decide (i < k)) =
      ⟨items.take k, statsOf (items.take k), [statsOf (items.take k)]⟩ := by
  have hrb : runBatch items (fun i => decide (i < k)) =
      ⟨(runBatchAux (fun i => decide (i < k)) items 0 ⟨0, 0, 0⟩).1,
       (runBatchAux (fun i => decide (i < k)) items 0 ⟨0, 0, 0⟩).2,
       [(runBatchAux (fun i => decide (i < k)) items 0 ⟨0, 0, 0⟩).2]⟩ := rfl
  rw [hrb, runBatchAux_stop items k 0 ⟨0, 0, 0⟩]
  simp only [Nat.sub_zero, statsOf_foldl]

theorem countP_itemresult_sum (l : List ItemResult) :
    l.countP (fun x => x == ItemResult.success) +
      l.countP (fun x => x == ItemResult.failure) +
      l.countP (fun x => x == ItemResult.skipped) = l.length := by
  induction l with
  | nil => rfl
  | cons x t ih => cases x <;> simp [List.countP_cons] <;> omega

theorem statsOf_take_mono (l : List ItemResult) (m n : Nat) (h : m ≤ n) :
    BatchStats.le (statsOf (l.take m)) (statsOf (l.take n)) := by
  have hsub : List.Sublist (l.take m) (l.take n) := by
    have h1 := List.take_sublist m (l.take n)
    rwa [List.take_take, Nat.min_eq_left h] at h1
  exact ⟨hsub.countP_le _, hsub.countP_le _, hsub.countP_le _⟩

/-- C10: the batch counters start at zero and never decrease, every
fully processed item increments exactly one of the three counters by
one (each counter equals its count over the processed items), and at
loop exit their sum equals the number of items fully processed. -/
theorem c10_batch_invariants (items : List ItemResult) (running : Nat → Bool) :
    (runBatch items running).stats.success =
      (runBatch items running).processed.countP (fun x => x == ItemResult.success)
    ∧ (runBatch items running).stats.failed =
      (runBatch items running).processed.countP (fun x => x == ItemResult.failure)
    ∧ (runBatch items running).stats.skipped =
      (runBatch items running).processed.countP (fun x => x == ItemResult.skipped)
    ∧ (runBatch items running).stats.success + (runBatch items running).stats.failed
        + (runBatch items running).stats.skipped
      = (runBatch items running).processed.length
    ∧ statsOf ((runBatch items running).processed.take 0) = ⟨0, 0, 0⟩
    ∧ (∀ m n, m ≤ n →
        BatchStats.le (statsOf ((runBatch items running).processed.take m))
          (statsOf ((runBatch items running).processed.take n))) := by
  have hstats : (runBatch items running).stats =
      statsOf (runBatch items running).processed := by
    show (runBatchAux running items 0 ⟨0, 0, 0⟩).2 =
      statsOf (runBatchAux running items 0 ⟨0, 0, 0⟩).1
    rw [runBatchAux_stats, statsOf_foldl]
  refine ⟨?_, ?_, ?_, ?_, rfl, fun m n h => statsOf_take_mono _ m n h⟩
  · rw [hstats]; rfl
  · rw [hstats]; rfl
  · rw [hstats]; rfl
  · rw [hstats]
    exact countP_itemresult_sum _

theorem c10_batch_invariants_witness :
    (runBatch [ItemResult.success, ItemResult.skipped, ItemResult.failure]
        (fun _ => true)).stats.success +
      (runBatch [ItemResult.success, ItemResult.skipped, ItemResult.failure]
        (fun _ => true)).stats.failed +
      (runBatch [ItemResult.success, ItemResult.skipped, ItemResult.failure]
        (fun _ => true)).stats.skipped
      = (runBatch [ItemResult.success, ItemResult.skipped, ItemResult.failure]
          (fun _ => true)).processed.length
    ∧ BatchStats.le
        (statsOf ((runBatch [ItemResult.success, ItemResult.skipped, ItemResult.failure]
          (fun _ => true)).processed.take 1))
        (statsOf ((runBatch [ItemResult.success, ItemResult.skipped, ItemResult.failure]
          (fun _ => true)).processed.take 2)) := by
  have h := c10_batch_invariants
    [ItemResult.success, ItemResult.skipped, ItemResult.failure] (fun _ => true)
  exact ⟨h.2.2.2.1, h.2.2.2.2.2 1 2 (by omega)⟩

theorem lookupKey_upsert {β : Type} (l : List ((String × String) × β))
    (k : String × String) (v : β) :
    lookupKey (upsertKey l k v) k = some v := by
  rw [upsertKey]
  induction l with
  | nil => simp [lookupKey]
  | cons kv t ih =>
    by_cases h : kv.1 == k
    · simpa [List.filter_cons, h] using ih
    · simp only [List.filter_cons, h]
      simpa [lookupKey, h] using ih

/-- C1 counterexample: with a previous empty snapshot and a fetched
playlist containing one available entry, changes are observed, yet when
the user declines the confirmation prompt `detect_playlist_updates`
returns `cancel` with the state completely unchanged: no snapshot is
recorded for the playlist, contradicting "the new snapshot is persisted
regardless of the user's answer". -/
theorem c1_counterexample :
    detect_playlist_updates ⟨[], [], [], []⟩ "u" "/d" true false true true
        ⟨some ⟨some "PL1", [⟨some "A", none, some "t"⟩]⟩, some [], false, false⟩ 0
      = (⟨[], [], [], []⟩, ⟨DPUStatus.cancel, none, [], [], false⟩)
    ∧ lookupKey (detect_playlist_updates ⟨[], [], [], []⟩ "u" "/d" true false true
        true ⟨some ⟨some "PL1", [⟨some "A", none, some "t"⟩]⟩, some [], false,
          false⟩ 0).1.playlist_states ("/d", "PL1")
      = none := by
  constructor
  · decide
  · decide

/-- C1 (amended): when `detect_playlist_updates` observes changes, the
new snapshot (current member ids plus `last_checked`) is persisted when
the user confirms or when prompting is disabled; declining the
confirmation returns `cancel` before anything is persisted, gating both
the snapshot update and the downloading of new items. -/
theorem c1_snapshot_on_confirmation (st : AppState) (playlistUrl downloadPath : String)
    (promptUser manualTrigger showMsg offerAuto : Bool) (env : DPUEnv) (now : Nat)
    (md : PlaylistMetadata)
    (hurl : playlistUrl ≠ "") (hpath : downloadPath ≠ "")
    (hmd : env.metadata = some md) (hent : md.entries ≠ [])
    (hpid : playlistIdOf md playlistUrl ≠ "")
    (hch : ¬(addedOf (prevIdsOf st (normalize_path downloadPath)
              (playlistIdOf md playlistUrl)) (currentIdsOf md) = []
            ∧ removedOf (prevIdsOf st (normalize_path downloadPath)
                (playlistIdOf md playlistUrl)) (currentIdsOf md) = []
            ∧ missingOf (prevIdsOf st (normalize_path downloadPath)
                (playlistIdOf md playlistUrl)) (currentIdsOf md)
                (fun v => hasLocalFileForVideo env.listing
                  (normalize_path downloadPath) v) = [])) :
    (promptUser = true → env.userConfirm = false →
      detect_playlist_updates st playlistUrl downloadPath promptUser manualTrigger
          showMsg offerAuto env now
        = (st, ⟨DPUStatus.cancel, none, [], [], false⟩))
    ∧ (promptUser = false ∨ env.userConfirm = true →
        lookupKey (detect_playlist_updates st playlistUrl downloadPath promptUser
            manualTrigger showMsg offerAuto env now).1.playlist_states
            (normalize_path downloadPath, playlistIdOf md playlistUrl)
          = some ⟨playlistUrl, currentIdsOf md, now⟩
        ∧ (detect_playlist_updates st playlistUrl downloadPath promptUser
            manualTrigger showMsg offerAuto env now).1.statesDisk
          = (detect_playlist_updates st playlistUrl downloadPath promptUser
              manualTrigger showMsg offerAuto env now).1.playlist_states) := by
  constructor
  · intro hp hu
    simp only [detect_playlist_updates, hmd, hp, hu]
    rw [if_neg (by simp [hurl, hpath])]
    rw [if_neg hent]
    rw [if_neg hch]
    simp
  · intro hpu
    have hcond : ¬(promptUser = true ∧ ¬env.userConfirm = true) := by
      rcases hpu with h | h <;> simp [h]
    simp only [detect_playlist_updates, hmd]
    rw [if_neg (by simp [hurl, hpath])]
    rw [if_neg hent]
    rw [if_neg hch]
    rw [if_neg hcond]
    have hupd : update_playlist_state st (normalize_path downloadPath)
        (playlistIdOf md playlistUrl) playlistUrl (currentIdsOf md) now =
        { st with
          playlist_states := upsertKey st.playlist_states
            (normalize_path downloadPath, playlistIdOf md playlistUrl)
            ⟨playlistUrl, currentIdsOf md, now⟩
          statesDisk := upsertKey st.playlist_states
            (normalize_path downloadPath, playlistIdOf md playlistUrl)
            ⟨playlistUrl, currentIdsOf md, now⟩ } := by
      rw [update_playlist_state]
      rw [if_neg (by simp [normalize_path, hpath, hpid])]
      rfl
    split
    · rw [hupd]
      exact ⟨lookupKey_upsert _ _ _, rfl⟩
    · rw [hupd]
      exact ⟨lookupKey_upsert _ _ _, rfl⟩

theorem c1_snapshot_on_confirmation_witness :
    lookupKey (detect_playlist_updates ⟨[], [], [], []⟩ "u" "/d" false false true true
        ⟨some ⟨some "PL1", [⟨some "A", none, some "t"⟩]⟩, some [], false, false⟩
        0).1.playlist_states ("/d", "PL1")
      = some ⟨"u", ["A"], 0⟩ := by
  have h := (c1_snapshot_on_confirmation ⟨[], [], [], []⟩ "u" "/d" false false true
      true ⟨some ⟨some "PL1", [⟨some "A", none, some "t"⟩]⟩, some [], false, false⟩ 0
      ⟨some "PL1", [⟨some "A", none, some "t"⟩]⟩
      (by decide) (by decide) rfl (by decide) (by decide) (by decide)).2 (Or.inl rfl)
  exact h.1

end VideoDownloader
